import Mathlib

/-!
Shallow embedding of the biotracker service (src/main.py): the compound
catalog, the injection log, the password gate, and the decay formula the
specification describes.  Database rows are modelled as lists kept in
insertion order (SQLAlchemy auto-increment primary keys become a counter in
the state), float columns become rationals, and the `DateTime` column
becomes a record of calendar fields.
-/

/-- A calendar date-time as stored in the `DateTime` column; the fields
mirror the Python `datetime` components down to seconds. -/
structure PyDateTime where
  year : Nat
  month : Nat
  day : Nat
  hour : Nat
  minute : Nat
  second : Nat
deriving DecidableEq

/-- Strict lexicographic comparison of date-times, matching Python
`datetime` comparison and SQLite ordering of zero-padded timestamp text. -/
def PyDateTime.ltb (a b : PyDateTime) : Bool :=
  decide (a.year < b.year ∨ (a.year = b.year ∧ (a.month < b.month ∨ (a.month = b.month ∧
    (a.day < b.day ∨ (a.day = b.day ∧ (a.hour < b.hour ∨ (a.hour = b.hour ∧
    (a.minute < b.minute ∨ (a.minute = b.minute ∧ a.second < b.second))))))))))

/-- Non-strict date-time comparison. -/
def PyDateTime.leb (a b : PyDateTime) : Bool :=
  PyDateTime.ltb a b || decide (a = b)

/-- Row of the `compounds` table (class Compound in src/main.py):
id, name, half_life_hours, category, min_threshold. -/
structure Compound where
  id : Nat
  name : String
  half_life_hours : Rat
  category : String
  min_threshold : Rat
deriving DecidableEq

/-- Row of the `logs` table (class InjectionLog in src/main.py):
id, compound_name, mcg, timestamp. -/
structure InjectionLog where
  id : Nat
  compound_name : String
  mcg : Rat
  timestamp : PyDateTime
deriving DecidableEq

/-- The persistent store: both tables in insertion order, plus the next
auto-increment primary key of each. -/
structure DB where
  compounds : List Compound
  logs : List InjectionLog
  nextCompoundId : Nat
  nextLogId : Nat
deriving DecidableEq

/-- A freshly created database: both tables empty (SQLite ids start at 1). -/
def DB.empty : DB := ⟨[], [], 1, 1⟩

/-- Outcome of an API call: the `status: ok` body, or a raised
HTTPException with a status code and detail string. -/
inductive ApiResult where
  | ok
  | httpError (status : Nat) (detail : String)
deriving DecidableEq

/-- Whitespace for Python str.strip (the ASCII characters of str.isspace). -/
def pyIsSpace (c : Char) : Bool :=
  c = ' ' || c = '\t' || c = '\n' || c = '\r' || c = '\x0b' || c = '\x0c'

/-- Python str.strip(): remove leading and trailing whitespace. -/
def pyStrip (s : String) : String :=
  String.mk (((s.data.dropWhile pyIsSpace).reverse.dropWhile pyIsSpace).reverse)

/-- GET /api/verify-password.  `app_password` is os.environ.get("APP_PASSWORD")
(`none` when the variable is unset); Python truthiness makes both `None` and
the empty string fall through to the 401 branch. -/
def verify_password (app_password : Option String) (password : String) : ApiResult :=
  match app_password with
  | some stored =>
    if stored != "" && pyStrip password == pyStrip stored then ApiResult.ok
    else ApiResult.httpError 401 "Accesso negato"
  | none => ApiResult.httpError 401 "Accesso negato"

/-- GET /api/compounds: all rows of the compounds table. -/
def get_compounds (db : DB) : List Compound :=
  db.compounds

/-- POST /api/compounds/add: if no row has this name, insert one with the
hard-coded category "P" and the next id; in every case answer status ok. -/
def add_compound (name : String) (half_life : Rat) (threshold : Rat) (db : DB) : DB × ApiResult :=
  if (db.compounds.find? (fun c => c.name == name)).isNone then
    ({ db with
        compounds := db.compounds ++
          [{ id := db.nextCompoundId, name := name, half_life_hours := half_life,
             category := "P", min_threshold := threshold }],
        nextCompoundId := db.nextCompoundId + 1 }, ApiResult.ok)
  else (db, ApiResult.ok)

/-- DELETE /api/compounds/id: delete every compound row whose id matches
(the filtered query's delete); answer status ok regardless. -/
def delete_compound (id : Nat) (db : DB) : DB × ApiResult :=
  ({ db with compounds := db.compounds.filter (fun c => c.id != id) }, ApiResult.ok)

/-- Comparison passed to the sort in GET /api/logs: descending timestamp. -/
def logDescLe (a b : InjectionLog) : Bool :=
  PyDateTime.leb b.timestamp a.timestamp

/-- GET /api/logs: all log rows ordered by timestamp descending
(order_by(InjectionLog.timestamp.desc()); a stable sort of the rows in
insertion order). -/
def get_logs (db : DB) : List InjectionLog :=
  db.logs.mergeSort logDescLe

/-- Length of a month, as Python datetime validates day-of-month. -/
def daysInMonth (y m : Nat) : Nat :=
  if m = 2 then (if y % 4 = 0 ∧ (y % 100 ≠ 0 ∨ y % 400 = 0) then 29 else 28)
  else if m = 4 ∨ m = 6 ∨ m = 9 ∨ m = 11 then 30 else 31

/-- Decimal value of a nonempty all-digit character run, else `none`. -/
def parseNatDigits (s : List Char) : Option Nat :=
  if s ≠ [] ∧ s.all Char.isDigit = true then
    some (s.foldl (fun n c => n * 10 + (c.toNat - 48)) 0)
  else none

/-- Split a character run at every occurrence of a separator character. -/
def splitOnChar (sep : Char) : List Char → List (List Char)
  | [] => [[]]
  | c :: rest =>
    match splitOnChar sep rest with
    | [] => [[]]
    | h :: t => if c = sep then [] :: h :: t else (c :: h) :: t

/-- Models datetime.strptime(s, '%Y-%m-%d %H:%M:%S'): a four-digit year and
one- or two-digit month, day, hour, minute, second, separated as in the
format and within calendar ranges; `none` models the raised ValueError. -/
def strptimeYmdHms (s : String) : Option PyDateTime :=
  match splitOnChar ' ' s.data with
  | [dateS, timeS] =>
    match splitOnChar '-' dateS, splitOnChar ':' timeS with
    | [ys, mos, ds], [hs, mis, ss] =>
      match parseNatDigits ys, parseNatDigits mos, parseNatDigits ds,
            parseNatDigits hs, parseNatDigits mis, parseNatDigits ss with
      | some y, some mo, some d, some h, some mi, some sec =>
        if ys.length = 4 ∧ mos.length ≤ 2 ∧ ds.length ≤ 2 ∧ hs.length ≤ 2 ∧
            mis.length ≤ 2 ∧ ss.length ≤ 2 ∧
            1 ≤ mo ∧ mo ≤ 12 ∧ 1 ≤ d ∧ d ≤ daysInMonth y mo ∧
            h ≤ 23 ∧ mi ≤ 59 ∧ sec ≤ 59 then
          some ⟨y, mo, d, h, mi, sec⟩
        else none
      | _, _, _, _, _, _ => none
    | _, _ => none
  | _ => none

/-- The clean_ts preprocessing in save_log: drop every 'Z', turn every 'T'
into a space (str.replace replaces all occurrences; both patterns are
single characters), and pad a 16-character YYYY-MM-DD HH:MM string with
":00". -/
def cleanTimestamp (ts : String) : String :=
  let s := String.mk ((ts.data.filter (fun c => c != 'Z')).map
    (fun c => if c = 'T' then ' ' else c))
  if s.length = 16 then s ++ ":00" else s

/-- POST /api/logs.  `now` stands for datetime.now() at the request.  A
missing or empty timestamp string (both falsy in Python) uses `now`; a
nonempty one is cleaned and parsed, and on parse failure the code falls
back to `now`.  The new row is always inserted and the call answers ok. -/
def save_log (now : PyDateTime) (name : String) (dose : Rat)
    (timestamp : Option String) (db : DB) : DB × ApiResult :=
  let dt_obj :=
    match timestamp with
    | some ts =>
      if ts ≠ "" then
        match strptimeYmdHms (cleanTimestamp ts) with
        | some d => d
        | none => now
      else now
    | none => now
  ({ db with
      logs := db.logs ++
        [{ id := db.nextLogId, compound_name := name, mcg := dose, timestamp := dt_obj }],
      nextLogId := db.nextLogId + 1 }, ApiResult.ok)

/-- DELETE /api/logs/id: delete every log row whose id matches; answer
status ok regardless. -/
def delete_log (id : Nat) (db : DB) : DB × ApiResult :=
  ({ db with logs := db.logs.filter (fun e => e.id != id) }, ApiResult.ok)

/-- States reachable from a fresh database through the mutating API
operations. -/
inductive Reachable : DB → Prop where
  | init : Reachable DB.empty
  | add (name : String) (hl th : Rat) (db : DB) :
      Reachable db → Reachable (add_compound name hl th db).1
  | delC (id : Nat) (db : DB) :
      Reachable db → Reachable (delete_compound id db).1
  | save (now : PyDateTime) (name : String) (dose : Rat) (ts : Option String) (db : DB) :
      Reachable db → Reachable (save_log now name dose ts db).1
  | delL (id : Nat) (db : DB) :
      Reachable db → Reachable (delete_log id db).1

/-- Modelled from the spec: the decay estimator is absent from src/main.py
(the spec itself notes the source never implements it).  The formula is the
spec's remaining(dose, elapsed_hours, half_life_hours) =
dose * 2 ^ (-elapsed_hours / half_life_hours), over the reals. -/
noncomputable def remaining (dose elapsed_hours half_life_hours : ℝ) : ℝ :=
  dose * (2 : ℝ) ^ (-(elapsed_hours / half_life_hours))
theorem PyDateTime.leb_refl (a : PyDateTime) : PyDateTime.leb a a = true := by
  simp [PyDateTime.leb]

theorem PyDateTime.ltb_irrefl (a : PyDateTime) : PyDateTime.ltb a a = false := by
  simp [PyDateTime.ltb]

theorem PyDateTime.ltb_leb {a b : PyDateTime} (h : PyDateTime.ltb a b = true) :
    PyDateTime.leb a b = true := by
  simp [PyDateTime.leb, h]

theorem PyDateTime.ltb_trans {a b c : PyDateTime} (h1 : PyDateTime.ltb a b = true)
    (h2 : PyDateTime.ltb b c = true) : PyDateTime.ltb a c = true := by
  cases a; cases b; cases c
  simp only [PyDateTime.ltb, decide_eq_true_eq] at h1 h2 ⊢
  omega

theorem PyDateTime.leb_trans {a b c : PyDateTime} (h1 : PyDateTime.leb a b = true)
    (h2 : PyDateTime.leb b c = true) : PyDateTime.leb a c = true := by
  cases a; cases b; cases c
  simp only [PyDateTime.leb, PyDateTime.ltb, Bool.or_eq_true, decide_eq_true_eq,
    PyDateTime.mk.injEq] at h1 h2 ⊢
  omega

theorem PyDateTime.leb_total (a b : PyDateTime) :
    PyDateTime.leb a b = true ∨ PyDateTime.leb b a = true := by
  cases a; cases b
  simp only [PyDateTime.leb, PyDateTime.ltb, Bool.or_eq_true, decide_eq_true_eq,
    PyDateTime.mk.injEq]
  omega

theorem PyDateTime.leb_antisymm {a b : PyDateTime} (h1 : PyDateTime.leb a b = true)
    (h2 : PyDateTime.leb b a = true) : a = b := by
  cases a; cases b
  simp only [PyDateTime.leb, PyDateTime.ltb, Bool.or_eq_true, decide_eq_true_eq,
    PyDateTime.mk.injEq] at h1 h2 ⊢
  omega

theorem PyDateTime.ltb_ne {a b : PyDateTime} (h : PyDateTime.ltb a b = true) : a ≠ b := by
  intro hab
  rw [hab, PyDateTime.ltb_irrefl] at h
  exact Bool.false_ne_true h
theorem logDescLe_trans (a b c : InjectionLog) (h1 : logDescLe a b) (h2 : logDescLe b c) :
    logDescLe a c :=
  PyDateTime.leb_trans h2 h1

theorem logDescLe_total (a b : InjectionLog) : logDescLe a b || logDescLe b a := by
  rcases PyDateTime.leb_total b.timestamp a.timestamp with h | h <;>
    simp [logDescLe, h]

/-- Sorted lists that are permutations of each other agree, antisymmetry
only being needed among the elements actually present. -/
theorem eq_of_perm_of_pairwise {α : Type} {r : α → α → Prop} :
    ∀ {l₁ l₂ : List α}, l₁.Perm l₂ → l₁.Pairwise r → l₂.Pairwise r →
      (∀ a ∈ l₁, ∀ b ∈ l₁, r a b → r b a → a = b) → l₁ = l₂ := by
  intro l₁
  induction l₁ with
  | nil => intro l₂ hp _ _ _; exact hp.nil_eq
  | cons a t ih =>
    intro l₂ hp h1 h2 hanti
    cases l₂ with
    | nil => exact absurd hp.eq_nil (List.cons_ne_nil a t)
    | cons b t₂ =>
      have hab : a = b := by
        have hbmem : b ∈ a :: t := hp.mem_iff.mpr (List.mem_cons_self b t₂)
        have hamem : a ∈ b :: t₂ := hp.mem_iff.mp (List.mem_cons_self a t)
        rcases List.mem_cons.mp hbmem with hba | hbt
        · exact hba.symm
        rcases List.mem_cons.mp hamem with hab | hat
        · exact hab
        have hrab : r a b := (List.pairwise_cons.mp h1).1 b hbt
        have hrba : r b a := (List.pairwise_cons.mp h2).1 a hat
        exact hanti a (List.mem_cons_self a t) b hbmem hrab hrba
      subst hab
      have ht : t = t₂ :=
        ih hp.cons_inv (List.pairwise_cons.mp h1).2 (List.pairwise_cons.mp h2).2
          (fun x hx y hy hxy hyx =>
            hanti x (List.mem_cons_of_mem a hx) y (List.mem_cons_of_mem a hy) hxy hyx)
      rw [ht]

/-- A list that is a permutation of three entries with strictly increasing
timestamps and is pairwise descending by timestamp is exactly the reversed
triple. -/
theorem triple_sorted_unique {e1 e2 e3 : InjectionLog} {l : List InjectionLog}
    (h12 : PyDateTime.ltb e1.timestamp e2.timestamp = true)
    (h23 : PyDateTime.ltb e2.timestamp e3.timestamp = true)
    (hp : l.Perm [e1, e2, e3])
    (hs : l.Pairwise (fun a b => logDescLe a b = true)) : l = [e3, e2, e1] := by
  have h13 : PyDateTime.ltb e1.timestamp e3.timestamp = true := PyDateTime.ltb_trans h12 h23
  have hp' : l.Perm [e3, e2, e1] := hp.trans (List.reverse_perm [e1, e2, e3]).symm
  have hs₂ : List.Pairwise (fun a b => logDescLe a b = true) [e3, e2, e1] := by
    refine List.Pairwise.cons ?_ (List.Pairwise.cons ?_ (List.Pairwise.cons ?_ List.Pairwise.nil))
    · intro b hb
      rcases List.mem_cons.mp hb with rfl | hb
      · exact PyDateTime.ltb_leb h23
      rcases List.mem_cons.mp hb with rfl | hb
      · exact PyDateTime.ltb_leb h13
      cases hb
    · intro b hb
      rcases List.mem_cons.mp hb with rfl | hb
      · exact PyDateTime.ltb_leb h12
      cases hb
    · intro b hb; cases hb
  refine eq_of_perm_of_pairwise hp' hs hs₂ ?_
  intro a ha b hb hab hba
  have hts : b.timestamp = a.timestamp := PyDateTime.leb_antisymm hab hba
  have ha' : a ∈ [e1, e2, e3] := hp.mem_iff.mp ha
  have hb' : b ∈ [e1, e2, e3] := hp.mem_iff.mp hb
  have hne12 := PyDateTime.ltb_ne h12
  have hne23 := PyDateTime.ltb_ne h23
  have hne13 := PyDateTime.ltb_ne h13
  simp only [List.mem_cons, List.not_mem_nil, or_false] at ha' hb'
  rcases ha' with rfl | rfl | rfl <;> rcases hb' with rfl | rfl | rfl <;>
    first
      | rfl
      | (exact absurd hts.symm hne12)
      | (exact absurd hts.symm hne13)
      | (exact absurd hts.symm hne23)
      | (exact absurd hts hne12)
      | (exact absurd hts hne13)
      | (exact absurd hts hne23)
/-- C1 fails on the code: add_compound on an existing name does not raise
any error.  The second add of name "A" answers the plain ok status and
leaves the database entirely unchanged. -/
theorem claim_C1_counterexample :
    (add_compound "A" 4 0 (add_compound "A" 4 0 DB.empty).1).2 = ApiResult.ok ∧
    (add_compound "A" 4 0 (add_compound "A" 4 0 DB.empty).1).1 =
      (add_compound "A" 4 0 DB.empty).1 := by
  decide

/-- C1, amended: when the catalog already contains a compound named N,
a second add_compound with name N leaves the database unchanged (so the
number of catalog entries is unchanged), but it does not fail with
DuplicateName: it answers the ok status. -/
theorem claim_C1 (db : DB) (name : String) (hl th : Rat)
    (h : (db.compounds.find? (fun c => c.name == name)).isSome = true) :
    add_compound name hl th db = (db, ApiResult.ok) := by
  cases hfind : db.compounds.find? (fun c => c.name == name) with
  | none => rw [hfind] at h; cases h
  | some c =>
    unfold add_compound
    rw [hfind]
    rfl

theorem claim_C1_witness :
    ((add_compound "A" 4 0 DB.empty).1.compounds.find?
        (fun c => c.name == "A")).isSome = true ∧
    add_compound "A" 4 0 (add_compound "A" 4 0 DB.empty).1 =
      ((add_compound "A" 4 0 DB.empty).1, ApiResult.ok) :=
  ⟨by decide, claim_C1 (add_compound "A" 4 0 DB.empty).1 "A" 4 0 (by decide)⟩

/-- C5 fails on the code: deleting an id that is in neither table raises no
NotFound.  With one compound and one log, both of id 1, deleting id 2 from
either table answers ok and leaves the store unchanged. -/
theorem claim_C5_counterexample :
    (delete_compound 2 ⟨[⟨1, "A", 4, "P", 0⟩], [⟨1, "A", 1, ⟨2024, 1, 1, 0, 0, 0⟩⟩], 2, 2⟩).2 =
      ApiResult.ok ∧
    (delete_log 2 ⟨[⟨1, "A", 4, "P", 0⟩], [⟨1, "A", 1, ⟨2024, 1, 1, 0, 0, 0⟩⟩], 2, 2⟩).2 =
      ApiResult.ok ∧
    (delete_compound 2 ⟨[⟨1, "A", 4, "P", 0⟩], [⟨1, "A", 1, ⟨2024, 1, 1, 0, 0, 0⟩⟩], 2, 2⟩).1 =
      ⟨[⟨1, "A", 4, "P", 0⟩], [⟨1, "A", 1, ⟨2024, 1, 1, 0, 0, 0⟩⟩], 2, 2⟩ ∧
    (delete_log 2 ⟨[⟨1, "A", 4, "P", 0⟩], [⟨1, "A", 1, ⟨2024, 1, 1, 0, 0, 0⟩⟩], 2, 2⟩).1 =
      ⟨[⟨1, "A", 4, "P", 0⟩], [⟨1, "A", 1, ⟨2024, 1, 1, 0, 0, 0⟩⟩], 2, 2⟩ := by
  decide

/-- C5, amended: deleting an id absent from the respective table leaves the
whole store unchanged (state before equals state after), but neither
operation fails with NotFound: both answer the ok status. -/
theorem claim_C5 (db : DB) (id : Nat) :
    ((∀ c ∈ db.compounds, c.id ≠ id) → delete_compound id db = (db, ApiResult.ok)) ∧
    ((∀ e ∈ db.logs, e.id ≠ id) → delete_log id db = (db, ApiResult.ok)) := by
  constructor
  · intro h
    unfold delete_compound
    have hf : db.compounds.filter (fun c => c.id != id) = db.compounds :=
      List.filter_eq_self.mpr (fun a ha => by simpa using h a ha)
    rw [hf]
  · intro h
    unfold delete_log
    have hf : db.logs.filter (fun e => e.id != id) = db.logs :=
      List.filter_eq_self.mpr (fun a ha => by simpa using h a ha)
    rw [hf]

theorem claim_C5_witness :
    delete_compound 2 ⟨[⟨1, "A", 4, "P", 0⟩], [⟨1, "A", 1, ⟨2024, 1, 1, 0, 0, 0⟩⟩], 2, 2⟩ =
      (⟨[⟨1, "A", 4, "P", 0⟩], [⟨1, "A", 1, ⟨2024, 1, 1, 0, 0, 0⟩⟩], 2, 2⟩, ApiResult.ok) ∧
    delete_log 2 ⟨[⟨1, "A", 4, "P", 0⟩], [⟨1, "A", 1, ⟨2024, 1, 1, 0, 0, 0⟩⟩], 2, 2⟩ =
      (⟨[⟨1, "A", 4, "P", 0⟩], [⟨1, "A", 1, ⟨2024, 1, 1, 0, 0, 0⟩⟩], 2, 2⟩, ApiResult.ok) :=
  ⟨(claim_C5 ⟨[⟨1, "A", 4, "P", 0⟩], [⟨1, "A", 1, ⟨2024, 1, 1, 0, 0, 0⟩⟩], 2, 2⟩ 2).1
      (by decide),
   (claim_C5 ⟨[⟨1, "A", 4, "P", 0⟩], [⟨1, "A", 1, ⟨2024, 1, 1, 0, 0, 0⟩⟩], 2, 2⟩ 2).2
      (by decide)⟩

/-- C7 fails on the code: add_compound performs no validation of the
half-life.  Adding a fresh name with half_life -1 answers ok and creates a
catalog entry. -/
theorem claim_C7_counterexample :
    (add_compound "A" (-1) 0 DB.empty).1.compounds.length = 1 ∧
    (add_compound "A" (-1) 0 DB.empty).2 = ApiResult.ok := by
  decide

/-- C7, amended: a non-positive half_life_hours is not rejected: when the
name is fresh the entry is created (carrying the non-positive half-life)
and the call answers ok; no InvalidParameter error exists in the code. -/
theorem claim_C7 (db : DB) (name : String) (hl th : Rat) (_hneg : hl ≤ 0)
    (hfresh : (db.compounds.find? (fun c => c.name == name)).isNone = true) :
    (add_compound name hl th db).1.compounds =
      db.compounds ++ [⟨db.nextCompoundId, name, hl, "P", th⟩] ∧
    (add_compound name hl th db).2 = ApiResult.ok := by
  unfold add_compound
  rw [if_pos hfresh]
  exact ⟨rfl, rfl⟩

theorem claim_C7_witness :
    (-1 : Rat) ≤ 0 ∧
    ((add_compound "A" (-1) 0 DB.empty).1.compounds =
        DB.empty.compounds ++ [⟨DB.empty.nextCompoundId, "A", -1, "P", 0⟩] ∧
      (add_compound "A" (-1) 0 DB.empty).2 = ApiResult.ok) :=
  ⟨by decide, claim_C7 DB.empty "A" (-1) 0 (by decide) (by decide)⟩

/-- C8: delete_compound never touches the logs table: for every id and
every state, the log collection after the call is exactly the one before. -/
theorem claim_C8 (id : Nat) (db : DB) : (delete_compound id db).1.logs = db.logs :=
  rfl
/-- C2 fails on the code: a malformed timestamp string does not fail the
request.  Saving a log with timestamp "not-a-date" answers ok and creates
an entry carrying the current time (here 2024-05-06 07:08:09). -/
theorem claim_C2_counterexample :
    (save_log ⟨2024, 5, 6, 7, 8, 9⟩ "X" 10 (some "not-a-date") DB.empty).1.logs =
      [⟨1, "X", 10, ⟨2024, 5, 6, 7, 8, 9⟩⟩] ∧
    (save_log ⟨2024, 5, 6, 7, 8, 9⟩ "X" 10 (some "not-a-date") DB.empty).2 = ApiResult.ok := by
  decide

/-- C2, amended: when a caller-supplied nonempty timestamp string fails to
parse, save_log does not fail with InvalidTimestamp: it silently
substitutes the current time, creates the log entry with it, and answers
ok. -/
theorem claim_C2 (now : PyDateTime) (name : String) (dose : Rat) (ts : String) (db : DB)
    (_hne : ts ≠ "") (hfail : strptimeYmdHms (cleanTimestamp ts) = none) :
    save_log now name dose (some ts) db =
      ({ db with
          logs := db.logs ++ [⟨db.nextLogId, name, dose, now⟩],
          nextLogId := db.nextLogId + 1 }, ApiResult.ok) := by
  simp only [save_log, hfail, ite_self]

theorem claim_C2_witness :
    ("not-a-date" : String) ≠ "" ∧
    strptimeYmdHms (cleanTimestamp "not-a-date") = none ∧
    save_log ⟨2024, 5, 6, 7, 8, 9⟩ "X" 10 (some "not-a-date") DB.empty =
      ({ DB.empty with
          logs := DB.empty.logs ++ [⟨DB.empty.nextLogId, "X", 10, ⟨2024, 5, 6, 7, 8, 9⟩⟩],
          nextLogId := DB.empty.nextLogId + 1 }, ApiResult.ok) :=
  ⟨by decide, by decide,
    claim_C2 ⟨2024, 5, 6, 7, 8, 9⟩ "X" 10 "not-a-date" DB.empty (by decide) (by decide)⟩

/-- Membership in the catalog after an add: either an old row, or the new
row whose category is the hard-coded "P". -/
theorem mem_add_compound {c : Compound} {name : String} {hl th : Rat} {db : DB}
    (hc : c ∈ (add_compound name hl th db).1.compounds) :
    c ∈ db.compounds ∨ c = ⟨db.nextCompoundId, name, hl, "P", th⟩ := by
  unfold add_compound at hc
  split at hc
  · simp only [List.mem_append, List.mem_singleton] at hc
    exact hc
  · exact Or.inl hc

/-- C6: in every reachable state no two catalog rows share a name: the
guard in add_compound preserves the uniqueness invariant and no other
operation inserts a compound. -/
theorem claim_C6 (db : DB) (h : Reachable db) :
    db.compounds.Pairwise (fun a b => a.name ≠ b.name) := by
  induction h with
  | init => exact List.Pairwise.nil
  | add name hl th db' hr ih =>
    unfold add_compound
    split
    · next hfind =>
      refine List.pairwise_append.mpr ⟨ih, List.pairwise_singleton _ _, ?_⟩
      intro a ha b hb
      simp only [List.mem_singleton] at hb
      subst hb
      have := List.find?_eq_none.mp (Option.isNone_iff_eq_none.mp hfind) a ha
      simpa using this
    · exact ih
  | delC id db' hr ih =>
    exact ih.sublist (List.filter_sublist db'.compounds)
  | save now name dose ts db' hr ih => exact ih
  | delL id db' hr ih => exact ih

theorem claim_C6_witness :
    List.Pairwise (fun a b => a.name ≠ b.name)
      (add_compound "B" 2 0 (add_compound "A" 4 0 DB.empty).1).1.compounds :=
  claim_C6 _ (Reachable.add "B" 2 0 _ (Reachable.add "A" 4 0 DB.empty Reachable.init))

/-- C9: every compound in a reachable state has the hard-coded category
"P" (the caller cannot choose it), and a Compound record is determined by
its five columns id, name, half_life_hours, category, min_threshold —
there is no time-to-peak field. -/
theorem claim_C9 :
    (∀ db : DB, Reachable db → ∀ c ∈ db.compounds, c.category = "P") ∧
    (∀ c1 c2 : Compound, c1.id = c2.id → c1.name = c2.name →
      c1.half_life_hours = c2.half_life_hours → c1.category = c2.category →
      c1.min_threshold = c2.min_threshold → c1 = c2) := by
  constructor
  · intro db h
    induction h with
    | init => intro c hc; cases hc
    | add name hl th db' hr ih =>
      intro c hc
      rcases mem_add_compound hc with h' | rfl
      · exact ih c h'
      · rfl
    | delC id db' hr ih =>
      intro c hc
      exact ih c (List.mem_of_mem_filter hc)
    | save now name dose ts db' hr ih => exact ih
    | delL id db' hr ih => exact ih
  · intro c1 c2 h1 h2 h3 h4 h5
    cases c1; cases c2; simp_all

theorem claim_C9_witness :
    Compound.category ⟨1, "A", 4, "P", 0⟩ = "P" :=
  claim_C9.1 (add_compound "A" 4 0 DB.empty).1
    (Reachable.add "A" 4 0 DB.empty Reachable.init) ⟨1, "A", 4, "P", 0⟩ (by decide)
/-- C4: get_logs returns all log rows (a permutation of the stored list),
sorted descending by timestamp; rows with equal timestamps keep their
insertion order (stability of the sort); in particular three entries with
timestamps T1 < T2 < T3, inserted in any order, come back as T3, T2, T1. -/
theorem claim_C4 (db : DB) :
    (get_logs db).Perm db.logs ∧
    (get_logs db).Pairwise (fun a b => logDescLe a b = true) ∧
    (∀ a b : InjectionLog, a.timestamp = b.timestamp →
      List.Sublist [a, b] db.logs → List.Sublist [a, b] (get_logs db)) ∧
    (∀ e1 e2 e3 : InjectionLog, PyDateTime.ltb e1.timestamp e2.timestamp = true →
      PyDateTime.ltb e2.timestamp e3.timestamp = true →
      db.logs.Perm [e1, e2, e3] → get_logs db = [e3, e2, e1]) := by
  refine ⟨List.mergeSort_perm db.logs logDescLe, ?_, ?_, ?_⟩
  · exact List.sorted_mergeSort logDescLe_trans logDescLe_total db.logs
  · intro a b hts hsub
    refine List.pair_sublist_mergeSort logDescLe_trans logDescLe_total ?_ hsub
    show PyDateTime.leb b.timestamp a.timestamp = true
    rw [hts]
    exact PyDateTime.leb_refl b.timestamp
  · intro e1 e2 e3 h12 h23 hperm
    exact triple_sorted_unique h12 h23
      ((List.mergeSort_perm db.logs logDescLe).trans hperm)
      (List.sorted_mergeSort logDescLe_trans logDescLe_total db.logs)

theorem claim_C4_witness :
    get_logs ⟨[], [⟨2, "B", 1, ⟨2024, 1, 2, 0, 0, 0⟩⟩, ⟨1, "A", 1, ⟨2024, 1, 1, 0, 0, 0⟩⟩,
        ⟨3, "C", 1, ⟨2024, 1, 3, 0, 0, 0⟩⟩], 1, 4⟩ =
      [⟨3, "C", 1, ⟨2024, 1, 3, 0, 0, 0⟩⟩, ⟨2, "B", 1, ⟨2024, 1, 2, 0, 0, 0⟩⟩,
        ⟨1, "A", 1, ⟨2024, 1, 1, 0, 0, 0⟩⟩] :=
  (claim_C4 ⟨[], [⟨2, "B", 1, ⟨2024, 1, 2, 0, 0, 0⟩⟩, ⟨1, "A", 1, ⟨2024, 1, 1, 0, 0, 0⟩⟩,
      ⟨3, "C", 1, ⟨2024, 1, 3, 0, 0, 0⟩⟩], 1, 4⟩).2.2.2
    (⟨1, "A", 1, ⟨2024, 1, 1, 0, 0, 0⟩⟩ : InjectionLog)
    (⟨2, "B", 1, ⟨2024, 1, 2, 0, 0, 0⟩⟩ : InjectionLog)
    (⟨3, "C", 1, ⟨2024, 1, 3, 0, 0, 0⟩⟩ : InjectionLog) (by decide) (by decide)
    (List.Perm.swap (⟨1, "A", 1, ⟨2024, 1, 1, 0, 0, 0⟩⟩ : InjectionLog)
      (⟨2, "B", 1, ⟨2024, 1, 2, 0, 0, 0⟩⟩ : InjectionLog)
      [(⟨3, "C", 1, ⟨2024, 1, 3, 0, 0, 0⟩⟩ : InjectionLog)])

/-- C10: the password gate answers 401 whenever APP_PASSWORD is unset or
empty, whatever the supplied password; and it answers ok exactly when the
stored value is a nonempty string whose whitespace-stripped form equals the
whitespace-stripped supplied password. -/
theorem claim_C10 :
    (∀ password : String,
      verify_password none password = ApiResult.httpError 401 "Accesso negato") ∧
    (∀ password : String,
      verify_password (some "") password = ApiResult.httpError 401 "Accesso negato") ∧
    (∀ (stored : Option String) (password : String),
      verify_password stored password = ApiResult.ok ↔
        ∃ s, stored = some s ∧ s ≠ "" ∧ pyStrip password = pyStrip s) := by
  refine ⟨fun _ => rfl, fun _ => rfl, ?_⟩
  intro stored password
  cases stored with
  | none => simp [verify_password]
  | some s =>
    simp only [verify_password]
    split
    · next h =>
      simp only [Bool.and_eq_true, bne_iff_ne, beq_iff_eq, ne_eq] at h
      exact iff_of_true rfl ⟨s, rfl, h.1, h.2⟩
    · next h =>
      simp only [Bool.and_eq_true, bne_iff_ne, beq_iff_eq, ne_eq] at h
      refine iff_of_false (by simp) ?_
      rintro ⟨s2, hs2, hne, hstrip⟩
      injection hs2 with hss
      subst hss
      exact h ⟨hne, hstrip⟩

theorem claim_C10_witness :
    verify_password (some " pw ") "pw" = ApiResult.ok :=
  (claim_C10.2.2 (some " pw ") "pw").mpr ⟨" pw ", rfl, by decide, by decide⟩

/-- C3: for the spec's decay formula, with positive half-life and dose,
nothing has decayed at elapsed time 0, exactly half remains after one
half-life, and the remainder is strictly decreasing in elapsed time. -/
theorem claim_C3 (d h : ℝ) (hh : 0 < h) (hd : 0 < d) :
    remaining d 0 h = d ∧ remaining d h h = d / 2 ∧
    ∀ t1 t2 : ℝ, t1 < t2 → remaining d t2 h < remaining d t1 h := by
  refine ⟨?_, ?_, ?_⟩
  · simp [remaining]
  · rw [remaining, div_self hh.ne', Real.rpow_neg_one]
    ring
  · intro t1 t2 hlt
    unfold remaining
    apply mul_lt_mul_of_pos_left _ hd
    rw [Real.rpow_lt_rpow_left_iff one_lt_two]
    apply neg_lt_neg
    gcongr

theorem claim_C3_witness :
    (0 : ℝ) < 1 ∧ remaining 1 1 1 = 1 / 2 :=
  ⟨zero_lt_one, (claim_C3 1 1 zero_lt_one zero_lt_one).2.1⟩
